import Mathlib

/-!
Verification of the DeepReg data-loader interface
(`deepreg/dataset/loader/interface.py`).

Dense numpy arrays are modelled as a shape (list of dimension sizes) together
with the row-major flattened list of values; values are rationals.  Python
functions that can raise are modelled as `Except String` (the string being the
error message class).  External collaborators (tensorflow dataset ops, the
resize and affine-augmentation kernels, file-format backends) are modelled as
function parameters or by their documented elementwise semantics.
-/

namespace DeepReg

/-- A dense numpy array: list of dimension sizes plus the row-major flattened
values. -/
structure NDArray where
  shape : List Nat
  values : List Rat
deriving DecidableEq

/-- Row-major flattened index of a multi-index (numpy C-order):
fold `acc * dim + i` over the zipped dimensions/coordinates. -/
def flatIndex (shape idx : List Nat) : Nat :=
  (shape.zip idx).foldl (fun acc di => acc * di.1 + di.2) 0

/-- Value of the array at a multi-index (0 past the end of the data). -/
def NDArray.at (a : NDArray) (idx : List Nat) : Rat :=
  a.values.getD (flatIndex a.shape idx) 0

/-- numpy `arr[..., c]`: drop the last axis, selecting coordinate `c` on it.
On the flattened data this picks every `L`-th element starting at offset `c`,
where `L` is the size of the last axis. -/
def NDArray.indexLast (a : NDArray) (c : Nat) : NDArray :=
  { shape := a.shape.dropLast
    values := (List.range a.shape.dropLast.prod).map
      (fun t => a.values.getD (t * a.shape.getLastD 1 + c) 0) }

/-- numpy elementwise division by a scalar (`arr / c`). -/
def NDArray.divScalar (a : NDArray) (c : Rat) : NDArray :=
  { shape := a.shape, values := a.values.map (fun v => v / c) }

/-- `np.min` over a list; `none` models the `ValueError` numpy and Python
`min` raise on an empty sequence. -/
def npMin {α : Type} [LinearOrder α] : List α → Option α
  | [] => none
  | x :: xs =>
    match npMin xs with
    | none => some x
    | some m => some (min x m)

/-- `np.max` over a list; `none` models the `ValueError` numpy and Python
`max` raise on an empty sequence. -/
def npMax {α : Type} [LinearOrder α] : List α → Option α
  | [] => none
  | x :: xs =>
    match npMax xs with
    | none => some x
    | some m => some (max x m)

/-- `Except.ok` test for an `Except` value. -/
def exOk {ε α : Type} : Except ε α → Bool
  | .ok _ => true
  | .error _ => false

/-- Sequencing of two checks: the first error wins (Python statement order). -/
def eseq (a b : Except String Unit) : Except String Unit :=
  match a with
  | .error e => .error e
  | .ok _ => b

/-- The value-range check `if np.min(arr) < 0 or np.max(arr) > 1: raise`.
On a zero-size array `np.min` itself raises a `ValueError`. -/
def checkMinMax (a : NDArray) : Except String Unit :=
  match npMin a.values, npMax a.values with
  | some m, some M =>
    if m < 0 ∨ 1 < M then
      .error "has normalized value outside of 0 and 1"
    else
      .ok ()
  | _, _ => .error "zero-size array to reduction operation"

/-- The value-range check applied to an optional array (`if arr is None: continue`). -/
def checkMinMaxOpt : Option NDArray → Except String Unit
  | none => .ok ()
  | some a => checkMinMax a

/-- Image dimensionality check: images must be exactly 3-D. -/
def checkImageDim (a : NDArray) : Except String Unit :=
  if a.shape.length ≠ 3 then
    .error "shape should have dimension of 3"
  else
    .ok ()

/-- Label dimensionality check: labels must be 3-D or 4-D. -/
def checkLabelDim (a : NDArray) : Except String Unit :=
  if a.shape.length = 3 ∨ a.shape.length = 4 then
    .ok ()
  else
    .error "shape should have dimension of 3 or 4"

/-- Channel count of a label: 1 for a 3-D label, else `shape[-1]`. -/
def numLabelsOf (a : NDArray) : Nat :=
  if a.shape.length = 3 then 1 else a.shape.getLastD 0

/-- The final check: moving and fixed labels must have equal channel counts. -/
def checkNumLabels (ml fl : NDArray) : Except String Unit :=
  if numLabelsOf ml ≠ numLabelsOf fl then
    .error "moving image and fixed image have different numbers of labels"
  else
    .ok ()

/-- `GeneratorDataLoader.validate_images_and_labels`, transcribed check for
check in source order: images non-None; labels both None or both non-None;
value range of each supplied array; images 3-D; labels 3-D or 4-D; equal
label-channel counts.  The image/label spatial-shape comparison in the source
only logs a warning and is therefore absent here. -/
def validate_images_and_labels (moving_image fixed_image moving_label fixed_label :
    Option NDArray) (_image_indices : List Int) : Except String Unit :=
  match moving_image, fixed_image with
  | some mi, some fi =>
    if moving_label.isNone ≠ fixed_label.isNone then
      .error "moving label and fixed label must be both None or non-None"
    else
      eseq (checkMinMax mi) (eseq (checkMinMax fi)
        (eseq (checkMinMaxOpt moving_label) (eseq (checkMinMaxOpt fixed_label)
          (eseq (checkImageDim mi) (eseq (checkImageDim fi)
            (match moving_label, fixed_label with
             | some ml, some fl =>
               eseq (checkLabelDim ml) (eseq (checkLabelDim fl)
                 (checkNumLabels ml fl))
             | _, _ => .ok ()))))))
  | _, _ => .error "moving image and fixed image must not be None"

/-- Row-major index of a multi-index extended by a final coordinate. -/
theorem flatIndex_concat (s : List Nat) (L : Nat) (idx : List Nat) (c : Nat)
    (hlen : idx.length = s.length) :
    flatIndex (s ++ [L]) (idx ++ [c]) = flatIndex s idx * L + c := by
  unfold flatIndex
  rw [List.zip_append hlen.symm, List.foldl_append]
  rfl

/-- `arr[..., c]` agrees with the original array at every in-range multi-index:
the slice at `idx` is the original value at `idx ++ [c]`. -/
theorem indexLast_at (A : NDArray) (s : List Nat) (L c : Nat) (idx : List Nat)
    (hs : A.shape = s ++ [L])
    (hlen : idx.length = s.length)
    (hb : flatIndex s idx < s.prod) :
    (A.indexLast c).at idx = A.at (idx ++ [c]) := by
  unfold NDArray.at NDArray.indexLast
  simp only [hs, List.dropLast_concat, List.getLastD_concat,
    flatIndex_concat s L idx c hlen]
  have hlt : flatIndex s idx <
      ((List.range s.prod).map
        (fun t => A.values.getD (t * L + c) 0)).length := by
    simpa using hb
  rw [List.getD_eq_getElem?_getD, List.getElem?_eq_getElem hlt]
  simp

/-- Modelled from the spec: the label-sampling policy argument `sample_label`
of `deepreg.dataset.util.get_label_indices`, whose source is not among the
provided files.  Per the spec the policy options are: "all" selects every
channel in order; "sample" selects one uniformly random channel per call (the
random draw is modelled by the `pick` value carried in the policy, reduced
modulo the channel count); a single fixed channel index selects just that
channel. -/
inductive SampleLabel where
  | all : SampleLabel
  | sample (pick : Nat) : SampleLabel
  | fixed (c : Nat) : SampleLabel
deriving DecidableEq

/-- Modelled from the spec: `deepreg.dataset.util.get_label_indices
(num_labels, sample_label)`, whose source is not among the provided files.
"all" returns every channel index in ascending order; "sample" returns one
uniformly random channel; a fixed policy returns the configured channel. -/
def get_label_indices (num_labels : Nat) (p : SampleLabel) : List Nat :=
  match p with
  | .all => List.range num_labels
  | .sample pick => [pick % num_labels]
  | .fixed c => [c]

/-- One sample record yielded by the generator: the dict with keys
`moving_image`, `fixed_image`, optional `moving_label` / `fixed_label`, and
the `indices` vector. -/
structure Record where
  moving_image : NDArray
  fixed_image : NDArray
  moving_label : Option NDArray
  fixed_label : Option NDArray
  indices : List Int
deriving DecidableEq

/-- `GeneratorDataLoader.sample_image_label`: validate, then yield one record
per selected label channel.  The Python generator is modelled as the list of
all yielded records; a raise is modelled as the error alone. -/
def sample_image_label (sample_label : SampleLabel)
    (moving_image fixed_image : NDArray)
    (moving_label fixed_label : Option NDArray)
    (image_indices : List Int) : Except String (List Record) :=
  match validate_images_and_labels (some moving_image) (some fixed_image)
      moving_label fixed_label image_indices with
  | .error e => .error e
  | .ok _ =>
    match moving_label, fixed_label with
    | none, _ =>
      -- unlabeled: label_index = -1 means no label
      .ok [{ moving_image := moving_image, fixed_image := fixed_image,
             moving_label := none, fixed_label := none,
             indices := image_indices ++ [-1] }]
    | some mlab, some flab =>
      if mlab.shape.length = 4 then
        -- multiple labels: one record per selected channel
        .ok ((get_label_indices (mlab.shape.getD 3 0) sample_label).map
          (fun label_index =>
            { moving_image := moving_image, fixed_image := fixed_image,
              moving_label := some (mlab.indexLast label_index),
              fixed_label := some (flab.indexLast label_index),
              indices := image_indices ++ [(label_index : Int)] }))
      else
        -- only one label
        .ok [{ moving_image := moving_image, fixed_image := fixed_image,
               moving_label := some mlab, fixed_label := some flab,
               indices := image_indices ++ [0] }]
    | some _, none =>
      -- unreachable: validation rejects a lone moving label
      .error "moving label and fixed label must be both None or non-None"

/-- `GeneratorDataLoader.data_generator`: for every index tuple from
`sample_index_generator`, fetch both images from the backends and divide by
255, fetch the labels only when the loader is labeled, and yield every record
of `sample_image_label`.  Backends are function parameters; the index stream
is the list the index generator yields; a raise is modelled as the error
alone. -/
def data_generator {I : Type} (labeled : Bool) (sample_label : SampleLabel)
    (loader_moving_image loader_fixed_image loader_moving_label
      loader_fixed_label : I → NDArray) :
    List (I × I × List Int) → Except String (List Record)
  | [] => .ok []
  | (moving_index, fixed_index, image_indices) :: rest =>
    let moving_image := (loader_moving_image moving_index).divScalar 255
    let fixed_image := (loader_fixed_image fixed_index).divScalar 255
    let moving_label :=
      if labeled then some (loader_moving_label moving_index) else none
    let fixed_label :=
      if labeled then some (loader_fixed_label fixed_index) else none
    match sample_image_label sample_label moving_image fixed_image
        moving_label fixed_label image_indices with
    | .error e => .error e
    | .ok recs =>
      match data_generator labeled sample_label loader_moving_image
          loader_fixed_image loader_moving_label loader_fixed_label rest with
      | .error e => .error e
      | .ok more => .ok (recs ++ more)

/-- The record batch contributed by one index tuple, written as the spec
describes it: both images are fetched and divided by 255, the labels are
fetched exactly when the loader is labeled, and the result is passed to
`sample_image_label`. -/
def fetched_scaled_batch {I : Type} (labeled : Bool)
    (sample_label : SampleLabel)
    (loader_moving_image loader_fixed_image loader_moving_label
      loader_fixed_label : I → NDArray)
    (t : I × I × List Int) : Except String (List Record) :=
  sample_image_label sample_label
    ((loader_moving_image t.1).divScalar 255)
    ((loader_fixed_image t.2.1).divScalar 255)
    (if labeled then some (loader_moving_label t.1) else none)
    (if labeled then some (loader_fixed_label t.2.1) else none)
    t.2.2

/-- C1: for a 4-D moving label with N ≥ 1 channels and sample-label policy
"all", `sample_image_label` yields exactly N records, one per channel in
ascending order 0..N-1; the record for channel c has indices
image_indices ++ [c] and carries the channel slices moving_label[..., c] and
fixed_label[..., c]. -/
theorem C1_sample_all_channels (mi fi ml fl : NDArray) (ii : List Int)
    (hval : validate_images_and_labels (some mi) (some fi) (some ml) (some fl)
      ii = .ok ())
    (h4 : ml.shape.length = 4) (_hN : 1 ≤ ml.shape.getD 3 0) :
    sample_image_label .all mi fi (some ml) (some fl) ii =
      .ok ((List.range (ml.shape.getD 3 0)).map (fun c =>
        { moving_image := mi, fixed_image := fi,
          moving_label := some (ml.indexLast c),
          fixed_label := some (fl.indexLast c),
          indices := ii ++ [(c : Int)] })) ∧
    (∀ l, sample_image_label .all mi fi (some ml) (some fl) ii = .ok l →
      l.length = ml.shape.getD 3 0) := by
  have h : sample_image_label .all mi fi (some ml) (some fl) ii =
      .ok ((List.range (ml.shape.getD 3 0)).map (fun c =>
        { moving_image := mi, fixed_image := fi,
          moving_label := some (ml.indexLast c),
          fixed_label := some (fl.indexLast c),
          indices := ii ++ [(c : Int)] })) := by
    unfold sample_image_label
    rw [hval]
    simp [h4, get_label_indices]
  refine ⟨h, fun l hl => ?_⟩
  rw [h] at hl
  cases hl
  simp

/-- Witness for C1 at a concrete labeled input with two channels. -/
theorem C1_sample_all_channels_witness :
    sample_image_label .all ⟨[1,1,1],[0]⟩ ⟨[1,1,1],[0]⟩
      (some ⟨[1,1,1,2],[0,1]⟩) (some ⟨[1,1,1,2],[1,0]⟩) [7] =
      .ok [{ moving_image := ⟨[1,1,1],[0]⟩, fixed_image := ⟨[1,1,1],[0]⟩,
             moving_label := some ⟨[1,1,1],[0]⟩,
             fixed_label := some ⟨[1,1,1],[1]⟩, indices := [7, 0] },
           { moving_image := ⟨[1,1,1],[0]⟩, fixed_image := ⟨[1,1,1],[0]⟩,
             moving_label := some ⟨[1,1,1],[1]⟩,
             fixed_label := some ⟨[1,1,1],[0]⟩, indices := [7, 1] }] := by
  have h := (C1_sample_all_channels ⟨[1,1,1],[0]⟩ ⟨[1,1,1],[0]⟩
    ⟨[1,1,1,2],[0,1]⟩ ⟨[1,1,1,2],[1,0]⟩ [7] (by rfl) (by rfl) (by decide)).1
  rw [h]
  rfl

/-- C3: for validated inputs, the single-record cases of `sample_image_label`:
unlabeled input yields exactly one record with indices image_indices ++ [-1]
and no labels; a 3-D (single-channel) label pair yields exactly one record
with indices image_indices ++ [0] and the labels unchanged. -/
theorem C3_single_record_cases (p : SampleLabel) (mi fi ml fl : NDArray)
    (ii : List Int)
    (h1 : validate_images_and_labels (some mi) (some fi) none none ii = .ok ())
    (h2 : validate_images_and_labels (some mi) (some fi) (some ml) (some fl)
      ii = .ok ())
    (h3 : ml.shape.length = 3) :
    sample_image_label p mi fi none none ii =
      .ok [{ moving_image := mi, fixed_image := fi, moving_label := none,
             fixed_label := none, indices := ii ++ [-1] }] ∧
    sample_image_label p mi fi (some ml) (some fl) ii =
      .ok [{ moving_image := mi, fixed_image := fi, moving_label := some ml,
             fixed_label := some fl, indices := ii ++ [0] }] := by
  constructor
  · unfold sample_image_label
    rw [h1]
  · unfold sample_image_label
    rw [h2]
    have : ml.shape.length ≠ 4 := by omega
    simp [this]

/-- Witness for C3 at concrete unlabeled and 3-D labeled inputs. -/
theorem C3_single_record_cases_witness :
    sample_image_label .all ⟨[1,1,1],[0]⟩ ⟨[1,1,1],[1]⟩ none none [4] =
      .ok [{ moving_image := ⟨[1,1,1],[0]⟩, fixed_image := ⟨[1,1,1],[1]⟩,
             moving_label := none, fixed_label := none, indices := [4, -1] }] ∧
    sample_image_label .all ⟨[1,1,1],[0]⟩ ⟨[1,1,1],[1]⟩
      (some ⟨[1,1,1],[1]⟩) (some ⟨[1,1,1],[0]⟩) [4] =
      .ok [{ moving_image := ⟨[1,1,1],[0]⟩, fixed_image := ⟨[1,1,1],[1]⟩,
             moving_label := some ⟨[1,1,1],[1]⟩,
             fixed_label := some ⟨[1,1,1],[0]⟩, indices := [4, 0] }] :=
  C3_single_record_cases .all ⟨[1,1,1],[0]⟩ ⟨[1,1,1],[1]⟩
    ⟨[1,1,1],[1]⟩ ⟨[1,1,1],[0]⟩ [4] (by rfl) (by rfl) (by rfl)

/-- C10: a 4-D moving label of shape (a, b, c, 1) paired with a 3-D fixed
label of shape (d, e, f) passes validation (both channel counts are 1), and
`sample_image_label` then takes the multi-channel branch and yields a record
whose fixed label is fixed_label[..., 0]: a 2-D array of shape (d, e) holding
the depth-0 slice of the fixed label, not a 3-D label volume. -/
theorem C10_mixed_rank_channel_slice (mi fi ml fl : NDArray) (ii : List Int)
    (a b c d e f : Nat)
    (hmi : mi.shape.length = 3) (hfi : fi.shape.length = 3)
    (hml : ml.shape = [a, b, c, 1]) (hfl : fl.shape = [d, e, f])
    (hv1 : checkMinMax mi = .ok ()) (hv2 : checkMinMax fi = .ok ())
    (hv3 : checkMinMax ml = .ok ()) (hv4 : checkMinMax fl = .ok ()) :
    validate_images_and_labels (some mi) (some fi) (some ml) (some fl) ii =
      .ok () ∧
    sample_image_label .all mi fi (some ml) (some fl) ii =
      .ok [{ moving_image := mi, fixed_image := fi,
             moving_label := some (ml.indexLast 0),
             fixed_label := some (fl.indexLast 0),
             indices := ii ++ [0] }] ∧
    (fl.indexLast 0).shape = [d, e] ∧
    (∀ i j, i < d → j < e →
      (fl.indexLast 0).at [i, j] = fl.at [i, j, 0]) := by
  have hval : validate_images_and_labels (some mi) (some fi) (some ml)
      (some fl) ii = .ok () := by
    simp [validate_images_and_labels, eseq, checkMinMaxOpt, hv1, hv2, hv3, hv4,
      checkImageDim, hmi, hfi, checkLabelDim, checkNumLabels, numLabelsOf,
      hml, hfl]
  refine ⟨hval, ?_, ?_, ?_⟩
  · unfold sample_image_label
    rw [hval]
    have hr : List.range 1 = [0] := by rfl
    simp [hml, get_label_indices, hr]
  · simp [NDArray.indexLast, hfl]
  · intro i j hi hj
    have hb : flatIndex [d, e] [i, j] < ([d, e] : List Nat).prod := by
      have : flatIndex [d, e] [i, j] = i * e + j := by
        unfold flatIndex
        simp [List.zip, List.foldl]
      rw [this]
      have h1 : i * e + j < (i + 1) * e := by
        calc i * e + j < i * e + e := by omega
        _ = (i + 1) * e := by ring
      have h2 : (i + 1) * e ≤ d * e := Nat.mul_le_mul_right e hi
      calc i * e + j < (i + 1) * e := h1
      _ ≤ d * e := h2
      _ = ([d, e] : List Nat).prod := by simp
    exact indexLast_at fl [d, e] f 0 [i, j] hfl (by rfl) hb

/-- Witness for C10 at a concrete input: a (1,1,1,1) moving label with a
(2,1,1) fixed label yields a fixed-label slice of shape (2,1). -/
theorem C10_mixed_rank_channel_slice_witness :
    validate_images_and_labels (some ⟨[1,1,1],[0]⟩) (some ⟨[1,1,1],[0]⟩)
      (some ⟨[1,1,1,1],[1]⟩) (some ⟨[2,1,1],[0,1]⟩) [3] = .ok () ∧
    sample_image_label .all ⟨[1,1,1],[0]⟩ ⟨[1,1,1],[0]⟩
      (some ⟨[1,1,1,1],[1]⟩) (some ⟨[2,1,1],[0,1]⟩) [3] =
      .ok [{ moving_image := ⟨[1,1,1],[0]⟩, fixed_image := ⟨[1,1,1],[0]⟩,
             moving_label := some ((⟨[1,1,1,1],[1]⟩ : NDArray).indexLast 0),
             fixed_label := some ((⟨[2,1,1],[0,1]⟩ : NDArray).indexLast 0),
             indices := [3, 0] }] ∧
    ((⟨[2,1,1],[0,1]⟩ : NDArray).indexLast 0).shape = [2, 1] ∧
    (∀ i j, i < 2 → j < 1 →
      ((⟨[2,1,1],[0,1]⟩ : NDArray).indexLast 0).at [i, j] =
        (⟨[2,1,1],[0,1]⟩ : NDArray).at [i, j, 0]) :=
  C10_mixed_rank_channel_slice ⟨[1,1,1],[0]⟩ ⟨[1,1,1],[0]⟩
    ⟨[1,1,1,1],[1]⟩ ⟨[2,1,1],[0,1]⟩ [3] 1 1 1 2 1 1
    (by rfl) (by rfl) (by rfl) (by rfl) (by rfl) (by rfl) (by rfl) (by rfl)

theorem eseq_ok_iff (x y : Except String Unit) :
    eseq x y = .ok () ↔ (x = .ok () ∧ y = .ok ()) := by
  cases x with
  | error e => simp [eseq]
  | ok u => cases u; simp [eseq]

theorem npMin_eq_none_iff {α : Type} [LinearOrder α] (l : List α) :
    npMin l = none ↔ l = [] := by
  cases l with
  | nil => simp [npMin]
  | cons x xs =>
    cases h : npMin xs <;> simp [npMin, h]

theorem npMax_eq_none_iff {α : Type} [LinearOrder α] (l : List α) :
    npMax l = none ↔ l = [] := by
  cases l with
  | nil => simp [npMax]
  | cons x xs =>
    cases h : npMax xs <;> simp [npMax, h]

theorem npMin_spec {α : Type} [LinearOrder α] : ∀ {l : List α} {m : α}, npMin l = some m →
    m ∈ l ∧ ∀ v ∈ l, m ≤ v := by
  intro l
  induction l with
  | nil => intro m h; simp [npMin] at h
  | cons x xs ih =>
    intro m h
    rw [npMin] at h
    cases hx : npMin xs with
    | none =>
      have hxs : xs = [] := (npMin_eq_none_iff xs).mp hx
      rw [hx] at h
      simp at h
      subst h
      simp [hxs]
    | some m' =>
      rw [hx] at h
      simp at h
      obtain ⟨hmem, hle⟩ := ih hx
      subst h
      refine ⟨?_, ?_⟩
      · rcases min_choice x m' with hc | hc <;> rw [hc]
        · exact List.mem_cons_self x xs
        · exact List.mem_cons_of_mem x hmem
      · intro v hv
        rcases List.mem_cons.mp hv with hv | hv
        · rw [hv]; exact min_le_left x m'
        · exact le_trans (min_le_right x m') (hle v hv)

theorem npMax_spec {α : Type} [LinearOrder α] : ∀ {l : List α} {M : α}, npMax l = some M →
    M ∈ l ∧ ∀ v ∈ l, v ≤ M := by
  intro l
  induction l with
  | nil => intro M h; simp [npMax] at h
  | cons x xs ih =>
    intro M h
    rw [npMax] at h
    cases hx : npMax xs with
    | none =>
      have hxs : xs = [] := (npMax_eq_none_iff xs).mp hx
      rw [hx] at h
      simp at h
      subst h
      simp [hxs]
    | some M' =>
      rw [hx] at h
      simp at h
      obtain ⟨hmem, hge⟩ := ih hx
      subst h
      refine ⟨?_, ?_⟩
      · rcases max_choice x M' with hc | hc <;> rw [hc]
        · exact List.mem_cons_self x xs
        · exact List.mem_cons_of_mem x hmem
      · intro v hv
        rcases List.mem_cons.mp hv with hv | hv
        · rw [hv]; exact le_max_left x M'
        · exact le_trans (hge v hv) (le_max_right x M')

/-- The value invariant as a boolean: nonempty data, every value in [0, 1]. -/
def valsOKb (a : NDArray) : Bool :=
  !a.values.isEmpty && a.values.all (fun v => decide (0 ≤ v) && decide (v ≤ 1))

theorem checkMinMax_ok_iff (a : NDArray) :
    checkMinMax a = .ok () ↔ valsOKb a = true := by
  unfold checkMinMax valsOKb
  cases hm : npMin a.values with
  | none =>
    have hv : a.values = [] := (npMin_eq_none_iff _).mp hm
    simp [hv, npMax]
  | some m =>
    cases hM : npMax a.values with
    | none =>
      have hv : a.values = [] := (npMax_eq_none_iff _).mp hM
      rw [hv] at hm
      simp [npMin] at hm
    | some M =>
      obtain ⟨hmm, hml⟩ := npMin_spec hm
      obtain ⟨hMm, hMg⟩ := npMax_spec hM
      constructor
      · intro h
        by_cases hc : m < 0 ∨ 1 < M
        · simp [hc] at h
        · push_neg at hc
          simp only [Bool.and_eq_true, Bool.not_eq_true', List.all_eq_true]
          refine ⟨?_, ?_⟩
          · rcases hv : a.values with _ | _
            · rw [hv] at hmm; simp at hmm
            · simp [hv]
          · intro v hv
            simp only [Bool.and_eq_true, decide_eq_true_eq]
            exact ⟨le_trans hc.1 (hml v hv), le_trans (hMg v hv) hc.2⟩
      · intro h
        simp only [Bool.and_eq_true, Bool.not_eq_true', List.all_eq_true] at h
        obtain ⟨hne, hall⟩ := h
        have hc : ¬(m < 0 ∨ 1 < M) := by
          push_neg
          have h1 := hall m hmm
          have h2 := hall M hMm
          simp only [Bool.and_eq_true, decide_eq_true_eq] at h1 h2
          exact ⟨h1.1, h2.2⟩
        simp [hc]

theorem checkImageDim_ok_iff (a : NDArray) :
    checkImageDim a = .ok () ↔ a.shape.length = 3 := by
  unfold checkImageDim
  split <;> simp_all

theorem checkLabelDim_ok_iff (a : NDArray) :
    checkLabelDim a = .ok () ↔ (a.shape.length = 3 ∨ a.shape.length = 4) := by
  unfold checkLabelDim
  split <;> simp_all

theorem checkNumLabels_ok_iff (ml fl : NDArray) :
    checkNumLabels ml fl = .ok () ↔ numLabelsOf ml = numLabelsOf fl := by
  unfold checkNumLabels
  split <;> simp_all

theorem exOk_false_iff (v : Except String Unit) :
    exOk v = false ↔ ¬(v = .ok ()) := by
  cases v with
  | ok u => cases u; simp [exOk]
  | error e => simp [exOk]

/-- All conditions under which `validate_images_and_labels` returns normally,
as one boolean: images present with consistent labels, every supplied array
nonempty with values in [0, 1], images 3-D, labels 3-D or 4-D with equal
channel counts. -/
def validateOKb : Option NDArray → Option NDArray → Option NDArray →
    Option NDArray → Bool
  | some mi, some fi, none, none =>
    valsOKb mi && valsOKb fi && (mi.shape.length == 3) && (fi.shape.length == 3)
  | some mi, some fi, some ml, some fl =>
    valsOKb mi && valsOKb fi && valsOKb ml && valsOKb fl &&
    (mi.shape.length == 3) && (fi.shape.length == 3) &&
    ((ml.shape.length == 3) || (ml.shape.length == 4)) &&
    ((fl.shape.length == 3) || (fl.shape.length == 4)) &&
    (numLabelsOf ml == numLabelsOf fl)
  | _, _, _, _ => false

theorem validate_ok_iff (mi fi ml fl : Option NDArray) (ii : List Int) :
    validate_images_and_labels mi fi ml fl ii = .ok () ↔
      validateOKb mi fi ml fl = true := by
  cases mi with
  | none =>
    cases fi <;> cases ml <;> cases fl <;>
      simp [validate_images_and_labels, validateOKb]
  | some mia =>
    cases fi with
    | none =>
      cases ml <;> cases fl <;>
        simp [validate_images_and_labels, validateOKb]
    | some fia =>
      cases ml with
      | none =>
        cases fl with
        | some fla => simp [validate_images_and_labels, validateOKb]
        | none =>
          simp [validate_images_and_labels, validateOKb, eseq_ok_iff,
            checkMinMaxOpt, checkMinMax_ok_iff, checkImageDim_ok_iff]
          tauto
      | some mla =>
        cases fl with
        | none => simp [validate_images_and_labels, validateOKb]
        | some fla =>
          simp [validate_images_and_labels, validateOKb, eseq_ok_iff,
            checkMinMaxOpt, checkMinMax_ok_iff, checkImageDim_ok_iff,
            checkLabelDim_ok_iff, checkNumLabels_ok_iff]
          tauto

/-- Out-of-range test the way claim C2 words it: some value of a supplied
array lies below 0 or above 1. -/
def outOfRangeB : Option NDArray → Bool
  | none => false
  | some a => a.values.any (fun v => decide (v < 0) || decide (1 < v))

/-- Image-dimensionality failure the way claim C2 words it. -/
def imageDimBadB : Option NDArray → Bool
  | none => false
  | some a => a.shape.length != 3

/-- Label-dimensionality failure the way claim C2 words it. -/
def labelDimBadB : Option NDArray → Bool
  | none => false
  | some a => !((a.shape.length == 3) || (a.shape.length == 4))

/-- Channel-count mismatch the way claim C2 words it. -/
def channelMismatchB : Option NDArray → Option NDArray → Bool
  | some ml, some fl => numLabelsOf ml != numLabelsOf fl
  | _, _ => false

/-- The raise condition exactly as claim C2 states it: either image None,
exactly one label None, a value outside [0, 1], an image not 3-D, a supplied
label not 3- or 4-D, or differing label channel counts. -/
def claimedRaiseC2 (mi fi ml fl : Option NDArray) : Bool :=
  mi.isNone || fi.isNone || (ml.isNone != fl.isNone) ||
  outOfRangeB mi || outOfRangeB fi || outOfRangeB ml || outOfRangeB fl ||
  imageDimBadB mi || imageDimBadB fi ||
  labelDimBadB ml || labelDimBadB fl ||
  channelMismatchB ml fl

/-- A supplied array on which the value-range check raises: it is zero-size
(numpy `min` raises on an empty array) or holds a value outside [0, 1]; the
equivalence with that disjunction is proved in the C2 theorem below. -/
def badValsB : Option NDArray → Bool
  | none => false
  | some a => !valsOKb a

/-- The raise condition of claim C2 amended only by widening the value
condition to cover zero-size arrays: either image None, exactly one label
None, a supplied array zero-size or holding a value outside [0, 1], an image
not 3-D, a supplied label not 3- or 4-D, or differing label channel counts. -/
def amendedRaiseC2 (mi fi ml fl : Option NDArray) : Bool :=
  mi.isNone || fi.isNone || (ml.isNone != fl.isNone) ||
  badValsB mi || badValsB fi || badValsB ml || badValsB fl ||
  imageDimBadB mi || imageDimBadB fi ||
  labelDimBadB ml || labelDimBadB fl ||
  channelMismatchB ml fl

theorem valsOKb_not_iff (a : NDArray) :
    ¬(valsOKb a = true) ↔
      (a.values.isEmpty = true ∨
        a.values.any (fun v => decide (v < 0) || decide (1 < v)) = true) := by
  unfold valsOKb
  constructor
  · intro h
    by_cases he : a.values.isEmpty = true
    · exact Or.inl he
    · right
      rw [List.any_eq_true]
      by_contra hno
      push_neg at hno
      apply h
      rw [Bool.and_eq_true]
      constructor
      · rw [Bool.not_eq_true']
        cases hb : a.values.isEmpty
        · rfl
        · exact absurd hb he
      · rw [List.all_eq_true]
        intro v hv
        have hnv := hno v hv
        rw [Bool.and_eq_true, decide_eq_true_eq, decide_eq_true_eq]
        constructor
        · by_contra h0
          exact hnv (by
            rw [Bool.or_eq_true, decide_eq_true_eq, decide_eq_true_eq]
            exact Or.inl (not_le.mp h0))
        · by_contra h1
          exact hnv (by
            rw [Bool.or_eq_true, decide_eq_true_eq, decide_eq_true_eq]
            exact Or.inr (not_le.mp h1))
  · intro h hval
    rw [Bool.and_eq_true, Bool.not_eq_true', List.all_eq_true] at hval
    rcases h with he | hany
    · rw [he] at hval
      exact absurd hval.1 (by simp)
    · rw [List.any_eq_true] at hany
      obtain ⟨v, hv, hout⟩ := hany
      rw [Bool.or_eq_true, decide_eq_true_eq, decide_eq_true_eq] at hout
      have hv01 := hval.2 v hv
      rw [Bool.and_eq_true, decide_eq_true_eq, decide_eq_true_eq] at hv01
      rcases hout with h' | h'
      · exact absurd hv01.1 (not_le.mpr h')
      · exact absurd hv01.2 (not_le.mpr h')

set_option maxHeartbeats 2000000 in
/-- C2 (amended): `validate_images_and_labels` raises exactly when one of the
claimed conditions holds, with the value condition widened to also cover
zero-size supplied arrays (numpy `min` raises on an empty array); the second
conjunct spells out that widened value condition.  Mismatched image/label
spatial shapes never appear in the characterization, so a spatial mismatch
alone never raises. -/
theorem C2_validate_raise_characterization (mi fi ml fl : Option NDArray)
    (ii : List Int) :
    (exOk (validate_images_and_labels mi fi ml fl ii) = false ↔
      amendedRaiseC2 mi fi ml fl = true) ∧
    (∀ a : NDArray, badValsB (some a) = true ↔
      (a.values.isEmpty = true ∨
        a.values.any (fun v => decide (v < 0) || decide (1 < v)) = true)) := by
  constructor
  · rw [exOk_false_iff, validate_ok_iff mi fi ml fl ii]
    cases mi with
    | none =>
      cases fi <;> cases ml <;> cases fl <;>
        simp [validateOKb, amendedRaiseC2, badValsB, imageDimBadB,
          labelDimBadB, channelMismatchB]
    | some mia =>
      cases fi with
      | none =>
        cases ml <;> cases fl <;>
          simp [validateOKb, amendedRaiseC2, badValsB, imageDimBadB,
            labelDimBadB, channelMismatchB]
      | some fia =>
        cases ml with
        | none =>
          cases fl with
          | some fla => simp [validateOKb, amendedRaiseC2]
          | none =>
            have hb1 : valsOKb mia = false ↔ ¬(valsOKb mia = true) := by
              cases valsOKb mia <;> simp
            have hb2 : valsOKb fia = false ↔ ¬(valsOKb fia = true) := by
              cases valsOKb fia <;> simp
            simp [validateOKb, amendedRaiseC2, badValsB, imageDimBadB,
              labelDimBadB, channelMismatchB]
            tauto
        | some mla =>
          cases fl with
          | none => simp [validateOKb, amendedRaiseC2]
          | some fla =>
            have hb1 : valsOKb mia = false ↔ ¬(valsOKb mia = true) := by
              cases valsOKb mia <;> simp
            have hb2 : valsOKb fia = false ↔ ¬(valsOKb fia = true) := by
              cases valsOKb fia <;> simp
            have hb3 : valsOKb mla = false ↔ ¬(valsOKb mla = true) := by
              cases valsOKb mla <;> simp
            have hb4 : valsOKb fla = false ↔ ¬(valsOKb fla = true) := by
              cases valsOKb fla <;> simp
            simp [validateOKb, amendedRaiseC2, badValsB, imageDimBadB,
              labelDimBadB, channelMismatchB]
            tauto
  · intro a
    have hb : (badValsB (some a) = true) ↔ ¬(valsOKb a = true) := by
      cases h : valsOKb a <;> simp [badValsB, h]
    rw [hb, valsOKb_not_iff]

/-- Counterexample to C2 as stated: a zero-size (but 3-D) moving image makes
`validate_images_and_labels` raise although none of the claimed conditions
holds. -/
theorem C2_zero_size_counterexample :
    claimedRaiseC2 (some ⟨[0,0,0],[]⟩) (some ⟨[1,1,1],[0]⟩) none none =
      false ∧
    exOk (validate_images_and_labels (some ⟨[0,0,0],[]⟩) (some ⟨[1,1,1],[0]⟩)
      none none []) = false := by
  decide

/-- Witness for C2 at a concrete input: an image holding the value 2, outside
the [0, 1] range, makes validation raise. -/
theorem C2_validate_raise_characterization_witness :
    exOk (validate_images_and_labels (some ⟨[1,1,1],[2]⟩)
      (some ⟨[1,1,1],[0]⟩) none none []) = false :=
  (C2_validate_raise_characterization (some ⟨[1,1,1],[2]⟩)
    (some ⟨[1,1,1],[0]⟩) none none []).1.mpr (by decide)

/-- Splitting a list into consecutive chunks of `B` elements; a final shorter
chunk holds the remainder.  With `B = 0` a nonempty list stays one chunk. -/
def chunkList {α : Type} (B : Nat) (xs : List α) : List (List α) :=
  if _h : 0 < B ∧ B ≤ xs.length then
    xs.take B :: chunkList B (xs.drop B)
  else if xs.isEmpty then [] else [xs]
termination_by xs.length
decreasing_by
  simp only [List.length_drop]
  omega

/-- `tf.data.Dataset.batch(batch_size, drop_remainder)`, modelled on finite
data: consecutive chunks of `batch_size` records; with `drop_remainder` the
trailing chunk shorter than `batch_size` is discarded. -/
def tfBatch {α : Type} (batch_size : Nat) (drop_remainder : Bool)
    (xs : List α) : List (List α) :=
  if drop_remainder then
    (chunkList batch_size xs).filter (fun b => b.length == batch_size)
  else
    chunkList batch_size xs

theorem chunkList_flatten {α : Type} (B : Nat) (xs : List α) :
    (chunkList B xs).flatten = xs := by
  have key : ∀ (n : Nat) (ys : List α), ys.length ≤ n →
      (chunkList B ys).flatten = ys := by
    intro n
    induction n with
    | zero =>
      intro ys h
      have hys : ys = [] := List.length_eq_zero.mp (Nat.le_zero.mp h)
      subst hys
      rw [chunkList, dif_neg (by simp only [List.length_nil]; omega)]
      simp
    | succ n ih =>
      intro ys h
      rw [chunkList]
      split
      · next hc =>
        rw [List.flatten_cons, ih (ys.drop B) (by simp only [List.length_drop]; omega)]
        exact List.take_append_drop B ys
      · split
        · next he => simp [List.isEmpty_iff.mp he]
        · simp
  exact key xs.length xs le_rfl

theorem chunkList_structure {α : Type} (B : Nat) (hB : 0 < B) (xs : List α) :
    chunkList B xs =
      (chunkList B xs).filter (fun b => b.length == B) ++
        (if xs.length % B = 0 then []
         else [xs.drop (B * (xs.length / B))]) := by
  have key : ∀ (n : Nat) (ys : List α), ys.length ≤ n →
      chunkList B ys =
        (chunkList B ys).filter (fun b => b.length == B) ++
          (if ys.length % B = 0 then []
           else [ys.drop (B * (ys.length / B))]) := by
    intro n
    induction n with
    | zero =>
      intro ys h
      have hys : ys = [] := List.length_eq_zero.mp (Nat.le_zero.mp h)
      subst hys
      rw [chunkList, dif_neg (by simp only [List.length_nil]; omega)]
      simp
    | succ n ih =>
      intro ys h
      rw [chunkList]
      split
      · next hc =>
        have hlen : (ys.take B).length = B := by
          simp only [List.length_take]
          omega
        have hdroplen : (ys.drop B).length = ys.length - B := by simp
        have hmod : ys.length % B = (ys.length - B) % B :=
          Nat.mod_eq_sub_mod hc.2
        have hdiv : ys.length / B = (ys.length - B) / B + 1 :=
          Nat.div_eq_sub_div hB hc.2
        have ihd := ih (ys.drop B) (by simp only [List.length_drop]; omega)
        rw [List.filter_cons_of_pos (by simp [hlen]), List.cons_append]
        congr 1
        conv_lhs => rw [ihd]
        rw [hdroplen, ← hmod]
        by_cases hmod0 : ys.length % B = 0
        · simp [hmod0]
        · rw [if_neg hmod0, if_neg hmod0]
          congr 2
          rw [List.drop_drop]
          congr 1
          rw [hdiv]
          ring
      · next hc =>
        split
        · next he => simp [List.isEmpty_iff.mp he]
        · next he =>
          have hne : ys ≠ [] := fun hy => he (by simp [hy])
          have hlt : ys.length < B := by
            rcases Nat.lt_or_ge ys.length B with h2 | h2
            · exact h2
            · exact absurd ⟨hB, h2⟩ hc
          have hpos : 0 < ys.length := List.length_pos.mpr hne
          have hmod : ys.length % B = ys.length := Nat.mod_eq_of_lt hlt
          have hdivz : ys.length / B = 0 := Nat.div_eq_of_lt hlt
          rw [List.filter_cons_of_neg (by simp; omega)]
          simp only [List.filter_nil, List.nil_append, hmod, hdivz]
          rw [if_neg (by omega)]
          simp
  exact key xs.length xs le_rfl

theorem tfBatch_full_batches {α : Type} (B : Nat) (xs : List α) :
    ∀ b ∈ tfBatch B true xs, b.length = B := by
  intro b hb
  simp only [tfBatch, if_pos, List.mem_filter, beq_iff_eq] at hb
  exact hb.2

/-- The error class the spec calls ConfigurationError.  No code path of
`get_dataset_and_preprocess` constructs it: the source performs no
batch/shuffle parameter validation. -/
inductive ConfigurationError where
  | mk (msg : String) : ConfigurationError
deriving DecidableEq

/-- `DataLoader.get_dataset_and_preprocess`, with the external tensorflow
dataset transformations modelled on a finite record list: `map resize_inputs`
elementwise; `shuffle(batch_size * shuffle_buffer_num_batch)` as an abstract
reordering function parameter applied to its buffer size; `repeat()` (an
infinite restart of the sequence) as an abstract function parameter;
`batch(batch_size, drop_remainder=training)` as `tfBatch`; `prefetch` has no
effect on the contents; the training-only affine augmentation as an abstract
per-batch function parameter.  The source raises nothing and validates no
parameter, so no `ConfigurationError` is ever produced. -/
def get_dataset_and_preprocess (training : Bool) (batch_size : Nat)
    (rep : Bool) (shuffle_buffer_num_batch : Nat)
    (resize_inputs : Record → Record)
    (shuffleFn : Nat → List Record → List Record)
    (repeatFn : List Record → List Record)
    (affine_transform : List Record → List Record)
    (dataset : List Record) :
    Except ConfigurationError (List (List Record)) :=
  let ds1 := dataset.map resize_inputs
  let ds2 :=
    if training ∧ 0 < shuffle_buffer_num_batch then
      shuffleFn (batch_size * shuffle_buffer_num_batch) ds1
    else ds1
  let ds3 := if rep then repeatFn ds2 else ds2
  let ds4 := tfBatch batch_size training ds3
  let ds5 := if training then ds4.map affine_transform else ds4
  .ok ds5

/-- C4 (amended): `get_dataset_and_preprocess` performs no validation of the
batch or shuffle parameters and never raises a ConfigurationError; in
particular with training = true and non-positive batch size it still returns
the composed dataset. -/
theorem C4_no_configuration_error (training : Bool) (batch_size : Nat)
    (rep : Bool) (shuffle_buffer_num_batch : Nat)
    (resize_inputs : Record → Record)
    (shuffleFn : Nat → List Record → List Record)
    (repeatFn : List Record → List Record)
    (affine_transform : List Record → List Record)
    (dataset : List Record) :
    exOk (get_dataset_and_preprocess training batch_size rep
      shuffle_buffer_num_batch resize_inputs shuffleFn repeatFn
      affine_transform dataset) = true := by
  rfl

/-- Counterexample to C4 as stated: with training = true and batch_size = 0
(non-positive), `get_dataset_and_preprocess` raises nothing and returns the
composed dataset. -/
theorem C4_counterexample :
    get_dataset_and_preprocess true 0 false 0 id (fun _ l => l) id id [] =
      .ok [] := by
  simp [get_dataset_and_preprocess, tfBatch]
  rw [chunkList]
  simp

/-- C5: in the batching step of `get_dataset_and_preprocess`
(`dataset.batch(batch_size, drop_remainder=training)`), a trailing partial
batch is dropped exactly when training is true: every batch kept under
training has exactly `batch_size` records and the partial batch is gone,
while without training the same chunks plus the trailing partial batch are
kept (so nothing is lost). -/
theorem C5_drop_remainder_iff_training (B : Nat) (ds : List Record)
    (hB : 0 < B) (hrem : ds.length % B ≠ 0) :
    tfBatch B false ds =
      tfBatch B true ds ++ [ds.drop (B * (ds.length / B))] ∧
    (tfBatch B false ds).flatten = ds ∧
    (∀ b ∈ tfBatch B true ds, b.length = B) ∧
    (∀ (training : Bool) (resize_inputs : Record → Record)
       (shuffleFn : Nat → List Record → List Record)
       (repeatFn : List Record → List Record)
       (affine_transform : List Record → List Record),
      get_dataset_and_preprocess training B false 0 resize_inputs shuffleFn
          repeatFn affine_transform ds =
        .ok (if training then
              (tfBatch B training (ds.map resize_inputs)).map affine_transform
             else tfBatch B training (ds.map resize_inputs))) := by
  refine ⟨?_, ?_, tfBatch_full_batches B ds, ?_⟩
  · have h := chunkList_structure B hB ds
    rw [if_neg hrem] at h
    unfold tfBatch
    simpa using h
  · unfold tfBatch
    rw [if_neg (by simp)]
    exact chunkList_flatten B ds
  · intro training resize_inputs shuffleFn repeatFn affine_transform
    unfold get_dataset_and_preprocess
    simp

/-- A concrete record used to witness the batching behavior. -/
def recW : Record :=
  { moving_image := ⟨[1,1,1],[0]⟩, fixed_image := ⟨[1,1,1],[0]⟩,
    moving_label := none, fixed_label := none, indices := [0, -1] }

/-- Witness for C5: batch size 2 over three records; training keeps one full
batch of two, no training keeps the trailing single-record batch as well. -/
theorem C5_drop_remainder_iff_training_witness :
    tfBatch 2 false [recW, recW, recW] =
      tfBatch 2 true [recW, recW, recW] ++
        [List.drop (2 * (([recW, recW, recW] : List Record).length / 2))
          [recW, recW, recW]] ∧
    get_dataset_and_preprocess true 2 false 0 id (fun _ l => l) id id
        [recW, recW, recW] =
      .ok (if true then
            (tfBatch 2 true (([recW, recW, recW] : List Record).map id)).map id
           else tfBatch 2 true (([recW, recW, recW] : List Record).map id)) :=
  ⟨(C5_drop_remainder_iff_training 2 [recW, recW, recW] (by decide)
      (by decide)).1,
   (C5_drop_remainder_iff_training 2 [recW, recW, recW] (by decide)
      (by decide)).2.2.2 true id (fun _ l => l) id id⟩

/-- C6: `data_generator` processes its index stream tuple by tuple, and for
each tuple fetches both images from the backends and divides them by 255
before handing them to `sample_image_label`, fetching the labels exactly when
the loader is labeled (`fetched_scaled_batch` spells that per-tuple step out);
the division rescales every value v to v / 255. -/
theorem C6_data_generator_fetch_scale {I : Type} (labeled : Bool)
    (p : SampleLabel) (lmi lfi lml lfl : I → NDArray)
    (stream : List (I × I × List Int)) :
    data_generator labeled p lmi lfi lml lfl stream =
      stream.foldr (fun t acc =>
        match fetched_scaled_batch labeled p lmi lfi lml lfl t with
        | .error e => .error e
        | .ok recs =>
          match acc with
          | .error e => .error e
          | .ok more => .ok (recs ++ more)) (.ok []) ∧
    (∀ a : NDArray, (a.divScalar 255).shape = a.shape ∧
      (a.divScalar 255).values = a.values.map (fun v => v / 255)) := by
  constructor
  · induction stream with
    | nil => rfl
    | cons t rest ih =>
      obtain ⟨m, f, ii⟩ := t
      rw [List.foldr_cons, ← ih]
      rfl
  · intro a
    exact ⟨rfl, rfl⟩

/-- A child data loader, reduced to what `ConcatenatedDataLoader` reads from
it: its `num_samples`. -/
structure ChildLoader where
  num_samples : Int
deriving DecidableEq

/-- The state of a constructed `ConcatenatedDataLoader`: its child list. -/
structure ConcatenatedDataLoader where
  loaders : List ChildLoader
deriving DecidableEq

/-- `ConcatenatedDataLoader.__init__`: `assert len(data_loaders) > 0`, then
store the list.  The failed assert is the error case. -/
def mkConcatenatedDataLoader (data_loaders : List ChildLoader) :
    Except String ConcatenatedDataLoader :=
  if data_loaders.length > 0 then
    .ok { loaders := data_loaders }
  else
    .error "assert len(data_loaders) > 0"

/-- `ConcatenatedDataLoader.num_samples`: sum of the children. -/
def ConcatenatedDataLoader.num_samples (c : ConcatenatedDataLoader) : Int :=
  (c.loaders.map (fun loader => loader.num_samples)).sum

/-- C7: constructing a `ConcatenatedDataLoader` from an empty list fails, any
nonempty list is accepted as-is, and `num_samples` is the exact sum of the
children. -/
theorem C7_concatenated_loader (ls : List ChildLoader) (hne : ls ≠ []) :
    (∃ e, mkConcatenatedDataLoader [] = .error e) ∧
    mkConcatenatedDataLoader ls = .ok { loaders := ls } ∧
    ConcatenatedDataLoader.num_samples { loaders := ls } =
      (ls.map (fun loader => loader.num_samples)).sum := by
  refine ⟨⟨"assert len(data_loaders) > 0", rfl⟩, ?_, rfl⟩
  unfold mkConcatenatedDataLoader
  rw [if_pos (List.length_pos.mpr hne)]

/-- Witness for C7: children of sizes 10, 5, 3 give num_samples 18. -/
theorem C7_concatenated_loader_witness :
    (∃ e, mkConcatenatedDataLoader [] = .error e) ∧
    mkConcatenatedDataLoader [⟨10⟩, ⟨5⟩, ⟨3⟩] =
      .ok { loaders := [⟨10⟩, ⟨5⟩, ⟨3⟩] } ∧
    ConcatenatedDataLoader.num_samples { loaders := [⟨10⟩, ⟨5⟩, ⟨3⟩] } = 18 := by
  have h := C7_concatenated_loader [⟨10⟩, ⟨5⟩, ⟨3⟩] (by decide)
  exact ⟨h.1, h.2.1, h.2.2.trans (by decide)⟩

/-- The group structure of a grouped `FileLoader`: `group_ids` and
`group_sample_dict`, as set up by `set_group_structure`. -/
structure GroupedFileLoader where
  group_ids : List Nat
  group_sample_dict : Nat → List Nat

/-- The two `ValueError`s reachable from `get_num_images_per_group`: the
explicit raise naming the empty groups, and Python `min` on an empty
sequence (no groups at all). -/
inductive GroupError where
  | emptyGroups (ids : List Nat) : GroupError
  | minOfEmptySequence : GroupError
deriving DecidableEq

/-- `FileLoader.get_num_images_per_group`: the per-group image counts;
raises naming the empty groups when some group has none. -/
def get_num_images_per_group (fl : GroupedFileLoader) :
    Except GroupError (List Nat) :=
  match npMin (fl.group_ids.map (fun g => (fl.group_sample_dict g).length)) with
  | none => .error .minOfEmptySequence
  | some m =>
    if m = 0 then
      .error (.emptyGroups (fl.group_ids.filter
        (fun g => (fl.group_sample_dict g).length == 0)))
    else
      .ok (fl.group_ids.map (fun g => (fl.group_sample_dict g).length))

/-- C8: when some group is empty, `get_num_images_per_group` raises a
ValueError naming exactly the empty groups and returns no list; when it
returns normally every group has at least one sample (and the list is the
per-group count).  The check is the first statement of the function, before
any sampling. -/
theorem C8_empty_group_fails (fl : GroupedFileLoader) :
    ((∃ g ∈ fl.group_ids, fl.group_sample_dict g = []) →
      get_num_images_per_group fl =
        .error (.emptyGroups (fl.group_ids.filter
          (fun g => (fl.group_sample_dict g).length == 0)))) ∧
    (∀ l, get_num_images_per_group fl = .ok l →
      (∀ g ∈ fl.group_ids, fl.group_sample_dict g ≠ []) ∧
      l = fl.group_ids.map (fun g => (fl.group_sample_dict g).length)) := by
  constructor
  · rintro ⟨g, hg, hempty⟩
    have h0 : (0 : Nat) ∈
        fl.group_ids.map (fun g => (fl.group_sample_dict g).length) :=
      List.mem_map.mpr ⟨g, hg, by simp [hempty]⟩
    unfold get_num_images_per_group
    cases hm : npMin
        (fl.group_ids.map (fun g => (fl.group_sample_dict g).length)) with
    | none =>
      rw [npMin_eq_none_iff] at hm
      rw [hm] at h0
      exact absurd h0 (List.not_mem_nil 0)
    | some m =>
      obtain ⟨hmem, hle⟩ := npMin_spec hm
      have hm0 : m = 0 := Nat.le_zero.mp (hle 0 h0)
      subst hm0
      simp
  · intro l hl
    unfold get_num_images_per_group at hl
    cases hm : npMin
        (fl.group_ids.map (fun g => (fl.group_sample_dict g).length)) with
    | none => rw [hm] at hl; simp at hl
    | some m =>
      rw [hm] at hl
      obtain ⟨hmem, hle⟩ := npMin_spec hm
      by_cases hm0 : m = 0
      · simp [hm0] at hl
      · simp [hm0] at hl
        refine ⟨?_, hl.symm⟩
        intro g hg hempty
        have h0 : (0 : Nat) ∈
            fl.group_ids.map (fun g => (fl.group_sample_dict g).length) :=
          List.mem_map.mpr ⟨g, hg, by simp [hempty]⟩
        exact hm0 (Nat.le_zero.mp (hle 0 h0))

/-- A grouped loader whose group 0 is empty, for the C8 witness. -/
def groupsW1 : GroupedFileLoader :=
  { group_ids := [0, 1], group_sample_dict := fun g => if g = 0 then [] else [7] }

/-- A grouped loader with one nonempty group, for the C8 witness. -/
def groupsW2 : GroupedFileLoader :=
  { group_ids := [0], group_sample_dict := fun _ => [7] }

/-- Witness for C8: the loader with the empty group 0 raises naming [0]; the
healthy loader returns its count list and its group is nonempty. -/
theorem C8_empty_group_fails_witness :
    get_num_images_per_group groupsW1 = .error (.emptyGroups [0]) ∧
    groupsW2.group_sample_dict 0 ≠ [] := by
  constructor
  · exact (C8_empty_group_fails groupsW1).1 ⟨0, by simp [groupsW1], rfl⟩
  · exact ((C8_empty_group_fails groupsW2).2 [1] rfl).1 0 (by simp [groupsW2])

/-- The state of a constructed `AbstractPairedDataLoader`: `num_indices = 2`
and the two stored shape tuples. -/
structure AbstractPairedDataLoader where
  num_indices : Nat
  _moving_image_shape : List Nat
  _fixed_image_shape : List Nat
deriving DecidableEq

/-- `AbstractPairedDataLoader.__init__`: raise unless both shapes have
length 3, else store them. -/
def mkAbstractPairedDataLoader (moving_image_shape fixed_image_shape :
    List Nat) : Except String AbstractPairedDataLoader :=
  if moving_image_shape.length ≠ 3 ∨ fixed_image_shape.length ≠ 3 then
    .error "moving_image_shape and fixed_image_shape have to be length of three"
  else
    .ok { num_indices := 2, _moving_image_shape := moving_image_shape,
          _fixed_image_shape := fixed_image_shape }

/-- The `moving_image_shape` property. -/
def AbstractPairedDataLoader.moving_image_shape
    (d : AbstractPairedDataLoader) : List Nat :=
  d._moving_image_shape

/-- The `fixed_image_shape` property. -/
def AbstractPairedDataLoader.fixed_image_shape
    (d : AbstractPairedDataLoader) : List Nat :=
  d._fixed_image_shape

/-- The state of a constructed `AbstractUnpairedDataLoader`:
`num_indices = 3` and the single stored shape tuple. -/
structure AbstractUnpairedDataLoader where
  num_indices : Nat
  image_shape : List Nat
deriving DecidableEq

/-- `AbstractUnpairedDataLoader.__init__`: raise unless the shape has
length 3, else store it. -/
def mkAbstractUnpairedDataLoader (image_shape : List Nat) :
    Except String AbstractUnpairedDataLoader :=
  if image_shape.length ≠ 3 then
    .error "image_shape has to be length of three"
  else
    .ok { num_indices := 3, image_shape := image_shape }

/-- The `moving_image_shape` property: the shared image shape. -/
def AbstractUnpairedDataLoader.moving_image_shape
    (d : AbstractUnpairedDataLoader) : List Nat :=
  d.image_shape

/-- The `fixed_image_shape` property: the shared image shape. -/
def AbstractUnpairedDataLoader.fixed_image_shape
    (d : AbstractUnpairedDataLoader) : List Nat :=
  d.image_shape

/-- C9: paired and unpaired construction succeed exactly when every supplied
shape has length 3; a constructed paired loader returns the two configured
shapes unchanged (no operation mutates them: the state is immutable after
construction), and a constructed unpaired loader returns the configured shape
as both its moving and fixed shape. -/
theorem C9_shape_contracts (ms fs s : List Nat) :
    (exOk (mkAbstractPairedDataLoader ms fs) = true ↔
      (ms.length = 3 ∧ fs.length = 3)) ∧
    (∀ d, mkAbstractPairedDataLoader ms fs = .ok d →
      d.moving_image_shape = ms ∧ d.fixed_image_shape = fs) ∧
    (exOk (mkAbstractUnpairedDataLoader s) = true ↔ s.length = 3) ∧
    (∀ u, mkAbstractUnpairedDataLoader s = .ok u →
      u.moving_image_shape = s ∧ u.fixed_image_shape = s ∧
      u.moving_image_shape = u.fixed_image_shape) := by
  refine ⟨?_, ?_, ?_, ?_⟩
  · by_cases h1 : ms.length = 3 <;> by_cases h2 : fs.length = 3 <;>
      simp [mkAbstractPairedDataLoader, exOk, h1, h2]
  · intro d hd
    by_cases h1 : ms.length = 3 <;> by_cases h2 : fs.length = 3 <;>
      simp [mkAbstractPairedDataLoader, h1, h2] at hd
    rw [← hd]
    exact ⟨rfl, rfl⟩
  · by_cases h1 : s.length = 3 <;>
      simp [mkAbstractUnpairedDataLoader, exOk, h1]
  · intro u hu
    by_cases h1 : s.length = 3 <;>
      simp [mkAbstractUnpairedDataLoader, h1] at hu
    rw [← hu]
    exact ⟨rfl, rfl, rfl⟩

/-- Witness for C9 at concrete shapes: (1,2,3)/(4,5,6) paired, (7,8,9)
unpaired, and a length-2 shape that is rejected. -/
theorem C9_shape_contracts_witness :
    (⟨2, [1,2,3], [4,5,6]⟩ : AbstractPairedDataLoader).moving_image_shape =
      [1,2,3] ∧
    (⟨2, [1,2,3], [4,5,6]⟩ : AbstractPairedDataLoader).fixed_image_shape =
      [4,5,6] ∧
    (⟨3, [7,8,9]⟩ : AbstractUnpairedDataLoader).moving_image_shape =
      [7,8,9] ∧
    (⟨3, [7,8,9]⟩ : AbstractUnpairedDataLoader).fixed_image_shape =
      [7,8,9] ∧
    exOk (mkAbstractPairedDataLoader [1,2] [4,5,6]) = false := by
  have h := C9_shape_contracts [1,2,3] [4,5,6] [7,8,9]
  have hp := h.2.1 ⟨2, [1,2,3], [4,5,6]⟩ rfl
  have hu := h.2.2.2 ⟨3, [7,8,9]⟩ rfl
  refine ⟨hp.1, hp.2, hu.1, hu.2.1, ?_⟩
  have hbad := (C9_shape_contracts [1,2] [4,5,6] [7,8,9]).1
  cases hx : exOk (mkAbstractPairedDataLoader [1,2] [4,5,6]) with
  | false => rfl
  | true => exact absurd (hbad.mp hx).1 (by decide)

end DeepReg
